import Mathlib

set_option maxRecDepth 16384

/-
Verification of the offline Kaspa protocol module (src/src/protocol-offline.ts).

Shallow embedding conventions:
  * JavaScript strings are modelled as `List Char`.
  * `Uint8Array` values are modelled as `List Nat` whose elements are < 256;
    `Uint8Array.prototype.set` is modelled by `uint8ArraySet`, returning `none`
    exactly when the real method throws a RangeError (source does not fit).
  * `parseInt(s, 16)` is modelled by `parseIntHex` (whitespace skip, optional
    sign, optional 0x/0X radix prefix, longest hex-digit prefix, `none` = NaN).
  * Storing a number into a `Uint8Array` coerces through ToUint8 (NaN becomes 0,
    otherwise the mathematical value modulo 256); modelled by `toUint8`.
  * Fallible operations return `Except String _`; the catch-and-rethrow wrapper
    of the source collapses every internal throw into one generic message.
-/

namespace KaspaOffline

/-- Hex digit recognition of parseInt with radix 16: the ASCII decimal
digits (codes 48-57), the lowercase letters a-f (codes 97-102) and the
uppercase letters A-F (codes 65-70), mapped to their numeric values. -/
def hexDigitVal? (c : Char) : Option Nat :=
  if 48 ≤ c.toNat ∧ c.toNat ≤ 57 then some (c.toNat - 48)
  else if 97 ≤ c.toNat ∧ c.toNat ≤ 102 then some (c.toNat - 87)
  else if 65 ≤ c.toNat ∧ c.toNat ≤ 70 then some (c.toNat - 55)
  else none

def isHexDigit (c : Char) : Bool :=
  (hexDigitVal? c).isSome

def hexDigitVal (c : Char) : Nat :=
  (hexDigitVal? c).getD 0

/-- The StrWhiteSpace characters skipped by parseInt (the ones relevant to
the ASCII strings this module handles, plus NBSP and BOM). -/
def jsWhitespace (c : Char) : Bool :=
  c = ' ' || c = '\t' || c = '\n' || c = '\r' ||
  c = Char.ofNat 11 || c = Char.ofNat 12 || c = Char.ofNat 0xA0 || c = Char.ofNat 0xFEFF

/-- parseInt with radix 16 strips a leading 0x or 0X before reading digits. -/
def strip0x : List Char → List Char
  | '0' :: 'x' :: rest => rest
  | '0' :: 'X' :: rest => rest
  | s => s

/-- Longest hex-digit prefix value; `none` when there is no digit (NaN). -/
def parseIntHexCore (s : List Char) : Option Nat :=
  let digits := (strip0x s).takeWhile isHexDigit
  if digits.isEmpty then none
  else some (digits.foldl (fun a c => 16 * a + hexDigitVal c) 0)

/-- Model of `parseInt(s, 16)`: skip whitespace, read an optional sign, then
the radix-16 digits; `none` models NaN. -/
def parseIntHex (s : List Char) : Option Int :=
  match s.dropWhile jsWhitespace with
  | '-' :: rest => (parseIntHexCore rest).map (fun n => -(n : Int))
  | '+' :: rest => (parseIntHexCore rest).map (fun n => (n : Int))
  | rest => (parseIntHexCore rest).map (fun n => (n : Int))

/-- Model of storing a JS number produced by parseInt into a `Uint8Array`
slot: NaN is coerced to 0, any other integer is taken modulo 256. -/
def toUint8 : Option Int → Nat
  | none => 0
  | some v => (v % 256).toNat

/-- Model of the hex-decoding loops of `getKeyPairFromDerivative`
(lines 88-101 of the source):

  const bytes = new Uint8Array(s.length / 2);
  for (let i = 0; i < s.length; i += 2) bytes[i / 2] = parseInt(s.substr(i, 2), 16);

The buffer holds floor(length / 2) slots (ToIndex truncates the fractional
length); for odd-length input the final one-character chunk is written at the
out-of-range index length / 2, which a typed array silently ignores.  Hence the
loop is equivalent to decoding the successive two-character chunks and dropping
a trailing odd character, which is how it is written here. -/
def hexToBytes : List Char → List Nat
  | [] => []
  | [_] => []
  | c1 :: c2 :: rest => toUint8 (parseIntHex [c1, c2]) :: hexToBytes rest

/-- The lowercase hex digit character of a value below 16, as produced by
`Number.prototype.toString(16)`: the decimal digits occupy codes 48-57 and
the letters a-f codes 97-102. -/
def hexDigitChar (n : Nat) : Char :=
  if n < 10 then Char.ofNat (48 + n)
  else if n < 16 then Char.ofNat (87 + n)
  else '0'

/-- Model of `byte.toString(16).padStart(2, "0")` for a byte (< 256): two
lowercase zero-padded hex characters. -/
def byteToHex (b : Nat) : List Char :=
  [hexDigitChar (b / 16), hexDigitChar (b % 16)]

/-- Model of line 119 of the source:
`Array.from(fullKeypair, byte => byte.toString(16).padStart(2, "0")).join("")`. -/
def bytesToHex (bs : List Nat) : List Char :=
  (bs.map byteToHex).flatten

/-- A valid hex string: even length, hex digits only. -/
def isValidHex (s : List Char) : Bool :=
  decide (s.length % 2 = 0) && s.all isHexDigit

/-- Model of `dst.set(src, off)` on typed arrays: in-range writes replace the
slice `[off, off + src.length)`; an overflowing write throws a RangeError,
modelled as `none`. -/
def uint8ArraySet (dst src : List Nat) (off : Nat) : Option (List Nat) :=
  if off + src.length ≤ dst.length then
    some (dst.take off ++ src ++ dst.drop (off + src.length))
  else none

/-- The input of `getKeyPairFromDerivative`: three hex-text fields. -/
structure CryptoDerivative where
  secretKey : List Char
  chainCode : List Char
  publicKey : List Char
deriving DecidableEq

/-- A tagged key value crossing the module boundary, with a type tag, a
format tag and a hex-text value field. -/
structure TaggedKey where
  type : String
  format : String
  value : List Char
deriving DecidableEq

structure KeyPair where
  secretKey : TaggedKey
  publicKey : TaggedKey
deriving DecidableEq

/-- The single message produced by the catch wrapper of
`getKeyPairFromDerivative` (line 128 of the source). -/
def deriveErrorMsg : String :=
  "Failed to derive key pair from derivative"

/-- The buffer-assembly steps of `getKeyPairFromDerivative` (lines 105-113):
a 96-byte extended private key receives the secret key at offsets 0 and 32 and
the chain code at offset 64; a 128-byte buffer receives the extended key at
offset 0 and the decoded public key at offset 96.  Each `set` can throw a
RangeError, hence the Option chaining. -/
def fullKeypairBytes? (derivative : CryptoDerivative) : Option (List Nat) :=
  (uint8ArraySet (List.replicate 96 0) (hexToBytes derivative.secretKey) 0).bind (fun e1 =>
  (uint8ArraySet e1 (hexToBytes derivative.secretKey) 32).bind (fun e2 =>
  (uint8ArraySet e2 (hexToBytes derivative.chainCode) 64).bind (fun extendedPrivateKey =>
  (uint8ArraySet (List.replicate 128 0) extendedPrivateKey 0).bind (fun f1 =>
  uint8ArraySet f1 (hexToBytes derivative.publicKey) 96))))

/-- Model of `getKeyPairFromDerivative` (lines 80-130 of the source): decode
the three fields, assemble the 128-byte buffer, return it hex-encoded with a
priv tag together with the unchanged publicKey text; any internal throw is
caught and rethrown as the one generic error. -/
def getKeyPairFromDerivative (derivative : CryptoDerivative) : Except String KeyPair :=
  match fullKeypairBytes? derivative with
  | some fullKeypair =>
      .ok { secretKey := { type := "priv", format := "hex", value := bytesToHex fullKeypair },
            publicKey := { type := "pub", format := "hex", value := derivative.publicKey } }
  | none => .error deriveErrorMsg

/-- The external curve library interface consumed by the source
(`new KaspCrypto.PrivateKey(value)` followed by
`KaspCrypto.Keypair.fromPrivateKey(privKey).publicKey.toString()`); `none`
models a throw from the library. -/
structure KaspaCryptoLib where
  publicKeyOfPrivate : List Char → Option (List Char)

/-- The message produced by the catch wrapper of `getPublicKeyFromSecretKey`
(line 149 of the source). -/
def pubKeyErrorMsg : String :=
  "Failed to derive public key"

/-- Model of `getPublicKeyFromSecretKey` (lines 138-151 of the source): the
library is handed `secretKey.value` directly; the declared type and format
tags of the argument are never read. -/
def getPublicKeyFromSecretKey (lib : KaspaCryptoLib) (secretKey : TaggedKey) :
    Except String TaggedKey :=
  match lib.publicKeyOfPrivate secretKey.value with
  | some pub => .ok { type := "pub", format := "hex", value := pub }
  | none => .error pubKeyErrorMsg

/-- The group order of secp256k1, used by the spec-modelled scalar check. -/
def secp256k1Order : Nat :=
  115792089237316195423570985008687907852837564279074904382605163141518161494337

/-- Big-endian byte-sequence value. -/
def bytesToNatBE (bs : List Nat) : Nat :=
  bs.foldl (fun a b => 256 * a + b) 0

/-- A 32-byte secret scalar valid for secp256k1: nonzero and below the group
order. -/
def validScalarBytes (bs : List Nat) : Bool :=
  decide (bs.length = 32) && decide (0 < bytesToNatBE bs) &&
    decide (bytesToNatBE bs < secp256k1Order)

/-- An abstract signing curve: public-key derivation, signing and
verification, supplied by the trusted external curve-primitive library. -/
structure SigningCurve where
  derivePub : List Nat → List Nat
  sign : List Nat → List Nat → List Nat
  verify : List Nat → List Nat → List Nat → Bool

/-- Modelled from the spec: the curve-primitive library behind
`getPublicKeyFromSecretKey` lives in src/crypto/kaspa, which is absent from
src/.  Per spec section 4.3 it decodes the hex value, rejects a byte length
not corresponding to a valid scalar (and per section 8 a zero scalar), and
otherwise returns the hex encoding of the derived public key. -/
def cryptoOfCurve (curve : SigningCurve) : KaspaCryptoLib where
  publicKeyOfPrivate v :=
    if isValidHex v = true ∧ validScalarBytes (hexToBytes v) = true then
      some (bytesToHex (curve.derivePub (hexToBytes v)))
    else none

structure UnsignedTransaction where
  payload : List Nat
deriving DecidableEq

structure SignedTransaction where
  transaction : UnsignedTransaction
  signature : List Nat
deriving DecidableEq

def unsupportedEncodingMsg : String :=
  "UnsupportedEncoding"

def signingFailureMsg : String :=
  "SigningFailure"

/-- Modelled from the spec: the body of `signTransactionWithSecretKey` is
elided in the source (lines 160-165 contain only a comment).  Spec section 4.4:
(1) decode the secret key, rejecting any format other than hex with
UnsupportedEncoding and a malformed or invalid scalar with SigningFailure;
(2) obtain the signable digest of the transaction from the injected digest
capability; (3) sign it with the curve primitive; (4) attach the signature,
preserving all non-signature fields. -/
def signTransactionWithSecretKey (curve : SigningCurve)
    (digest : UnsignedTransaction → List Nat)
    (transaction : UnsignedTransaction) (secretKey : TaggedKey) :
    Except String SignedTransaction :=
  if secretKey.format = "hex" then
    if isValidHex secretKey.value = true ∧ validScalarBytes (hexToBytes secretKey.value) = true then
      .ok { transaction := transaction,
            signature := curve.sign (hexToBytes secretKey.value) (digest transaction) }
    else .error signingFailureMsg
  else .error unsupportedEncodingMsg

structure ProtocolSymbol where
  value : String
  market : String
  asset : String
deriving DecidableEq

structure ProtocolUnit where
  symbol : ProtocolSymbol
  decimals : Nat
deriving DecidableEq

structure ProtocolAccountMetadata where
  standardDerivationPath : String
deriving DecidableEq

structure ProtocolMetadata where
  name : String
  identifier : String
  units : List (String × ProtocolUnit)
  mainUnit : String
  account : ProtocolAccountMetadata
deriving DecidableEq

structure CryptoConfiguration where
  algorithm : String
deriving DecidableEq

/-- The apostrophe character (code point 39) used by hardened-segment
notation in a derivation path. -/
def apostropheChar : Char := Char.ofNat 39

/-- A BIP44-style derivation path with hardened purpose, coin and account
segments followed by plain change and index segments. -/
def bip44Path (purpose coin account change index : Nat) : String :=
  "m/" ++ toString purpose ++ String.mk [apostropheChar] ++
  "/" ++ toString coin ++ String.mk [apostropheChar] ++
  "/" ++ toString account ++ String.mk [apostropheChar] ++
  "/" ++ toString change ++ "/" ++ toString index

/-- The derivation-path string literal of line 43 of the source,
m slash 84 hardened slash 0 hardened slash 0 hardened slash 0 slash 0. -/
def standardPathLiteral : String :=
  String.mk ['m', '/', '8', '4', apostropheChar, '/', '0', apostropheChar,
             '/', '0', apostropheChar, '/', '0', '/', '0']

/-- Model of `getMetadata` (lines 32-58 of the source). -/
def getMetadata : ProtocolMetadata :=
  let mainUnit := "KAS"
  { name := "My Protocol",
    identifier := "my-protocol",
    units := [(mainUnit,
      { symbol := { value := mainUnit, market := "kaspa-market", asset := "kaspa-asset" },
        decimals := 8 })],
    mainUnit := mainUnit,
    account := { standardDerivationPath := standardPathLiteral } }

/-- Model of `getCryptoConfiguration` (lines 67-72 of the source). -/
def getCryptoConfiguration : CryptoConfiguration :=
  { algorithm := "secp256k1" }

/-- State-passing form of `getKeyPairFromDerivative`: the body of the source
function only reads the fields of its argument (JS strings are immutable and
no statement assigns to `derivative.secretKey`, `derivative.chainCode` or
`derivative.publicKey`), so the object state threads through every statement
unchanged and is returned as the second component. -/
def getKeyPairFromDerivativeSt (derivative : CryptoDerivative) :
    Except String KeyPair × CryptoDerivative :=
  (getKeyPairFromDerivative derivative, derivative)

/-- State-passing form of `getPublicKeyFromSecretKey`: the source only reads
`secretKey.value` and assigns to no field of the argument. -/
def getPublicKeyFromSecretKeySt (lib : KaspaCryptoLib) (secretKey : TaggedKey) :
    Except String TaggedKey × TaggedKey :=
  (getPublicKeyFromSecretKey lib secretKey, secretKey)

/-- Whether an Except value is a success. -/
def isOkE {ε α : Type} : Except ε α → Bool
  | .ok _ => true
  | .error _ => false

instance {ε α : Type} [DecidableEq ε] [DecidableEq α] : DecidableEq (Except ε α) := fun a b =>
  match a, b with
  | .ok x, .ok y =>
      if h : x = y then isTrue (congrArg Except.ok h)
      else isFalse (fun hc => h (Except.ok.inj hc))
  | .error x, .error y =>
      if h : x = y then isTrue (congrArg Except.error h)
      else isFalse (fun hc => h (Except.error.inj hc))
  | .ok _, .error _ => isFalse (fun hc => Except.noConfusion hc)
  | .error _, .ok _ => isFalse (fun hc => Except.noConfusion hc)

/- ### Character-level facts about the codec -/

/-- The code-point ranges behind hexDigitVal?. -/
lemma isHexDigit_ranges {c : Char} (h : isHexDigit c = true) :
    48 ≤ c.toNat ∧ c.toNat ≤ 57 ∨ 97 ≤ c.toNat ∧ c.toNat ≤ 102 ∨
    65 ≤ c.toNat ∧ c.toNat ≤ 70 := by
  unfold isHexDigit hexDigitVal? at h
  by_cases h1 : 48 ≤ c.toNat ∧ c.toNat ≤ 57
  · exact Or.inl h1
  · rw [if_neg h1] at h
    by_cases h2 : 97 ≤ c.toNat ∧ c.toNat ≤ 102
    · exact Or.inr (Or.inl h2)
    · rw [if_neg h2] at h
      by_cases h3 : 65 ≤ c.toNat ∧ c.toNat ≤ 70
      · exact Or.inr (Or.inr h3)
      · rw [if_neg h3] at h
        simp at h

lemma hexDigitVal_lt {c : Char} (h : isHexDigit c = true) : hexDigitVal c < 16 := by
  unfold hexDigitVal hexDigitVal?
  rcases isHexDigit_ranges h with hr | hr | hr
  · rw [if_pos hr]
    simp only [Option.getD_some]
    omega
  · rw [if_neg (show ¬(48 ≤ c.toNat ∧ c.toNat ≤ 57) by omega), if_pos hr]
    simp only [Option.getD_some]
    omega
  · rw [if_neg (show ¬(48 ≤ c.toNat ∧ c.toNat ≤ 57) by omega),
        if_neg (show ¬(97 ≤ c.toNat ∧ c.toNat ≤ 102) by omega), if_pos hr]
    simp only [Option.getD_some]
    omega

/-- A hex digit is not whitespace, not a sign, not an x, its value is below
16, and re-encoding its value yields its lowercase form. -/
lemma hexChar_props {c : Char} (h : isHexDigit c = true) :
    jsWhitespace c = false ∧ c ≠ '-' ∧ c ≠ '+' ∧ c ≠ 'x' ∧ c ≠ 'X' ∧
    hexDigitVal c < 16 ∧ hexDigitChar (hexDigitVal c) = Char.toLower c := by
  have hr3 := isHexDigit_ranges h
  have hws : jsWhitespace c = false := by
    cases hcw : jsWhitespace c
    · rfl
    · exfalso
      unfold jsWhitespace at hcw
      simp only [Bool.or_eq_true, decide_eq_true_eq] at hcw
      rcases hcw with (((((((hc | hc) | hc) | hc) | hc) | hc) | hc) | hc) <;>
        rw [hc] at hr3 <;> exact absurd hr3 (by decide)
  refine ⟨hws, ?_, ?_, ?_, ?_, hexDigitVal_lt h, ?_⟩
  · intro hc
    rw [hc] at hr3
    exact absurd hr3 (by decide)
  · intro hc
    rw [hc] at hr3
    exact absurd hr3 (by decide)
  · intro hc
    rw [hc] at hr3
    exact absurd hr3 (by decide)
  · intro hc
    rw [hc] at hr3
    exact absurd hr3 (by decide)
  · simp only [hexDigitVal, hexDigitVal?, hexDigitChar, Char.toLower]
    rcases hr3 with hr | hr | hr
    · rw [if_pos hr]
      simp only [Option.getD_some]
      rw [if_pos (by omega : c.toNat - 48 < 10),
          if_neg (by omega : ¬(c.toNat ≥ 65 ∧ c.toNat ≤ 90)),
          show 48 + (c.toNat - 48) = c.toNat by omega, Char.ofNat_toNat]
    · rw [if_neg (show ¬(48 ≤ c.toNat ∧ c.toNat ≤ 57) by omega), if_pos hr]
      simp only [Option.getD_some]
      rw [if_neg (by omega : ¬(c.toNat - 87 < 10)),
          if_pos (by omega : c.toNat - 87 < 16),
          if_neg (by omega : ¬(c.toNat ≥ 65 ∧ c.toNat ≤ 90)),
          show 87 + (c.toNat - 87) = c.toNat by omega, Char.ofNat_toNat]
    · rw [if_neg (show ¬(48 ≤ c.toNat ∧ c.toNat ≤ 57) by omega),
          if_neg (show ¬(97 ≤ c.toNat ∧ c.toNat ≤ 102) by omega), if_pos hr]
      simp only [Option.getD_some]
      rw [if_neg (by omega : ¬(c.toNat - 55 < 10)),
          if_pos (by omega : c.toNat - 55 < 16),
          if_pos (by omega : c.toNat ≥ 65 ∧ c.toNat ≤ 90)]
      congr 1
      omega

lemma isHexDigit_hexDigitChar {n : Nat} (h : n < 16) :
    isHexDigit (hexDigitChar n) = true := by
  interval_cases n <;> decide

lemma hexDigitVal_hexDigitChar {n : Nat} (h : n < 16) :
    hexDigitVal (hexDigitChar n) = n := by
  interval_cases n <;> decide

/- ### parseInt on two-character hex chunks -/

lemma parseIntHex_pair {c1 c2 : Char} (h1 : isHexDigit c1 = true) (h2 : isHexDigit c2 = true) :
    parseIntHex [c1, c2] = some ((16 * hexDigitVal c1 + hexDigitVal c2 : Nat) : Int) := by
  obtain ⟨hw1, hm1, hp1, hx1, hX1, hv1, -⟩ := hexChar_props h1
  obtain ⟨hw2, hm2, hp2, hx2, hX2, hv2, -⟩ := hexChar_props h2
  unfold parseIntHex
  have hdrop : List.dropWhile jsWhitespace [c1, c2] = [c1, c2] := by
    simp [List.dropWhile_cons, hw1]
  rw [hdrop]
  split
  · rename_i rest heq
    exact absurd (List.cons.inj heq).1 hm1
  · rename_i rest heq
    exact absurd (List.cons.inj heq).1 hp1
  · unfold parseIntHexCore
    have hstrip : strip0x [c1, c2] = [c1, c2] := by
      unfold strip0x
      split
      · rename_i heq
        exact absurd (List.cons.inj (List.cons.inj heq).2).1 hx2
      · rename_i heq
        exact absurd (List.cons.inj (List.cons.inj heq).2).1 hX2
      · rfl
    rw [hstrip]
    have htake : List.takeWhile isHexDigit [c1, c2] = [c1, c2] := by
      simp [List.takeWhile_cons, h1, h2]
    rw [htake]
    simp [List.foldl]

lemma toUint8_pair {c1 c2 : Char} (h1 : isHexDigit c1 = true) (h2 : isHexDigit c2 = true) :
    toUint8 (parseIntHex [c1, c2]) = 16 * hexDigitVal c1 + hexDigitVal c2 := by
  have hv1 := (hexChar_props h1).2.2.2.2.2.1
  have hv2 := (hexChar_props h2).2.2.2.2.2.1
  have hlt : ((16 * hexDigitVal c1 + hexDigitVal c2 : Nat) : Int) < 256 := by
    exact_mod_cast (by omega : 16 * hexDigitVal c1 + hexDigitVal c2 < 256)
  have hred : toUint8 (some ((16 * hexDigitVal c1 + hexDigitVal c2 : Nat) : Int)) =
      (((16 * hexDigitVal c1 + hexDigitVal c2 : Nat) : Int) % 256).toNat := rfl
  rw [parseIntHex_pair h1 h2, hred, Int.emod_eq_of_lt (by positivity) hlt]
  omega

lemma hexToBytes_cons_cons (x y : Char) (rest : List Char) :
    hexToBytes (x :: y :: rest) = toUint8 (parseIntHex [x, y]) :: hexToBytes rest := rfl

lemma toUint8_lt (o : Option Int) : toUint8 o < 256 := by
  match o with
  | none => decide
  | some v =>
    have h0 : 0 ≤ v % 256 := Int.emod_nonneg v (by decide)
    have h1 : v % 256 < 256 := Int.emod_lt_of_pos v (by decide)
    show (v % 256).toNat < 256
    omega

/- ### Round-trip laws of the byte codec -/

lemma hexToBytes_bytesToHex {bs : List Nat} (h : ∀ b ∈ bs, b < 256) :
    hexToBytes (bytesToHex bs) = bs := by
  induction bs with
  | nil => rfl
  | cons b rest ih =>
      have hb : b < 256 := h b (by simp)
      have hrest : ∀ x ∈ rest, x < 256 := fun x hx => h x (by simp [hx])
      have hcons : bytesToHex (b :: rest) =
          hexDigitChar (b / 16) :: hexDigitChar (b % 16) :: bytesToHex rest := rfl
      have hd : b / 16 < 16 := by omega
      have hm : b % 16 < 16 := by omega
      rw [hcons, hexToBytes_cons_cons,
          toUint8_pair (isHexDigit_hexDigitChar hd) (isHexDigit_hexDigitChar hm),
          hexDigitVal_hexDigitChar hd, hexDigitVal_hexDigitChar hm, ih hrest]
      congr 1
      omega

lemma bytesToHex_hexToBytes {s : List Char} (h : isValidHex s = true) :
    bytesToHex (hexToBytes s) = s.map Char.toLower := by
  induction s using hexToBytes.induct with
  | case1 => rfl
  | case2 c =>
      exfalso
      unfold isValidHex at h
      simp at h
  | case3 c1 c2 rest ih =>
      unfold isValidHex at h
      simp only [List.length_cons, List.all_cons, Bool.and_eq_true, decide_eq_true_eq] at h
      obtain ⟨hpar, h1, h2, hall⟩ := h
      have hrest : isValidHex rest = true := by
        unfold isValidHex
        rw [hall]
        simp only [Bool.and_true, decide_eq_true_eq]
        omega
      have hv1 := (hexChar_props h1).2.2.2.2.2
      have hv2 := (hexChar_props h2).2.2.2.2.2
      have e1 : (16 * hexDigitVal c1 + hexDigitVal c2) / 16 = hexDigitVal c1 := by
        have := hv2.1
        omega
      have e2 : (16 * hexDigitVal c1 + hexDigitVal c2) % 16 = hexDigitVal c2 := by
        have := hv2.1
        omega
      have hcons : bytesToHex ((16 * hexDigitVal c1 + hexDigitVal c2) :: hexToBytes rest) =
          hexDigitChar ((16 * hexDigitVal c1 + hexDigitVal c2) / 16) ::
          hexDigitChar ((16 * hexDigitVal c1 + hexDigitVal c2) % 16) ::
          bytesToHex (hexToBytes rest) := rfl
      rw [hexToBytes_cons_cons, toUint8_pair h1 h2, hcons, ih hrest, e1, e2, hv1.2, hv2.2]
      rfl

/- ### Totality and shape of the decoder -/

lemma hexToBytes_length (s : List Char) : (hexToBytes s).length = s.length / 2 := by
  induction s using hexToBytes.induct with
  | case1 => decide
  | case2 c => simp [hexToBytes]
  | case3 c1 c2 rest ih =>
      rw [hexToBytes_cons_cons]
      simp [ih]
      omega

lemma hexToBytes_all_lt (s : List Char) :
    (hexToBytes s).all (fun b => decide (b < 256)) = true := by
  induction s using hexToBytes.induct with
  | case1 => rfl
  | case2 c => rfl
  | case3 c1 c2 rest ih =>
      rw [hexToBytes_cons_cons]
      simp [ih, toUint8_lt]

/- ### Symbolic form of the buffer assembly -/

/-- The 96-byte extended-private-key buffer produced by the three in-range
`set` calls (secret key at 0, secret key again at 32, chain code at 64). -/
def extKey (d : CryptoDerivative) : List Nat :=
  let sk := hexToBytes d.secretKey
  let cc := hexToBytes d.chainCode
  let e1 := sk ++ List.replicate (96 - sk.length) 0
  let e2 := e1.take 32 ++ sk ++ e1.drop (32 + sk.length)
  e2.take 64 ++ cc ++ e2.drop (64 + cc.length)

/-- The 128-byte buffer produced when every `set` call is in range. -/
def fullAssembled (d : CryptoDerivative) : List Nat :=
  extKey d ++ hexToBytes d.publicKey ++
    List.replicate (32 - (hexToBytes d.publicKey).length) 0

lemma uint8ArraySet_eq {dst src : List Nat} {off : Nat} (h : off + src.length ≤ dst.length) :
    uint8ArraySet dst src off = some (dst.take off ++ src ++ dst.drop (off + src.length)) := by
  unfold uint8ArraySet
  rw [if_pos h]

lemma extKey_length (d : CryptoDerivative)
    (h1 : (hexToBytes d.secretKey).length ≤ 64)
    (h2 : (hexToBytes d.chainCode).length ≤ 32) :
    (extKey d).length = 96 := by
  unfold extKey
  simp [List.length_take, List.length_drop]
  omega

lemma fullKeypairBytes?_eq_some (d : CryptoDerivative)
    (h1 : (hexToBytes d.secretKey).length ≤ 64)
    (h2 : (hexToBytes d.chainCode).length ≤ 32)
    (h3 : (hexToBytes d.publicKey).length ≤ 32) :
    fullKeypairBytes? d = some (fullAssembled d) := by
  have e1eq : uint8ArraySet (List.replicate 96 0) (hexToBytes d.secretKey) 0 =
      some (hexToBytes d.secretKey ++
        List.replicate (96 - (hexToBytes d.secretKey).length) 0) := by
    rw [uint8ArraySet_eq (by simp; omega)]
    rw [List.take_zero, List.nil_append, Nat.zero_add, List.drop_replicate]
  have he1len : (hexToBytes d.secretKey ++
      List.replicate (96 - (hexToBytes d.secretKey).length) 0).length = 96 := by
    simp
    omega
  have e2eq : uint8ArraySet
      (hexToBytes d.secretKey ++ List.replicate (96 - (hexToBytes d.secretKey).length) 0)
      (hexToBytes d.secretKey) 32 =
      some ((hexToBytes d.secretKey ++
          List.replicate (96 - (hexToBytes d.secretKey).length) 0).take 32 ++
        hexToBytes d.secretKey ++
        (hexToBytes d.secretKey ++
          List.replicate (96 - (hexToBytes d.secretKey).length) 0).drop
            (32 + (hexToBytes d.secretKey).length)) := by
    rw [uint8ArraySet_eq (by rw [he1len]; omega)]
  have he2len : ((hexToBytes d.secretKey ++
        List.replicate (96 - (hexToBytes d.secretKey).length) 0).take 32 ++
      hexToBytes d.secretKey ++
      (hexToBytes d.secretKey ++
        List.replicate (96 - (hexToBytes d.secretKey).length) 0).drop
          (32 + (hexToBytes d.secretKey).length)).length = 96 := by
    simp [List.length_take, List.length_drop]
    omega
  have e3eq : uint8ArraySet
      ((hexToBytes d.secretKey ++
          List.replicate (96 - (hexToBytes d.secretKey).length) 0).take 32 ++
        hexToBytes d.secretKey ++
        (hexToBytes d.secretKey ++
          List.replicate (96 - (hexToBytes d.secretKey).length) 0).drop
            (32 + (hexToBytes d.secretKey).length))
      (hexToBytes d.chainCode) 64 = some (extKey d) := by
    rw [uint8ArraySet_eq (by rw [he2len]; omega)]
    rfl
  have hextlen : (extKey d).length = 96 := extKey_length d h1 h2
  have f1eq : uint8ArraySet (List.replicate 128 0) (extKey d) 0 =
      some (extKey d ++ List.replicate 32 0) := by
    rw [uint8ArraySet_eq (by simp [hextlen])]
    simp [List.drop_replicate, hextlen]
  have f2eq : uint8ArraySet (extKey d ++ List.replicate 32 0) (hexToBytes d.publicKey) 96 =
      some (fullAssembled d) := by
    rw [uint8ArraySet_eq (by simp [hextlen]; omega)]
    unfold fullAssembled
    rw [List.take_append_eq_append_take, List.drop_append_eq_append_drop,
        List.take_of_length_le (by rw [hextlen]),
        List.drop_eq_nil_of_le (by rw [hextlen]; omega),
        hextlen]
    simp only [Nat.sub_self, List.take_zero, List.append_nil, List.nil_append,
      Nat.add_sub_cancel_left, List.drop_replicate]
  unfold fullKeypairBytes?
  rw [e1eq, Option.some_bind, e2eq, Option.some_bind, e3eq, Option.some_bind,
      f1eq, Option.some_bind, f2eq]

/- ### Concrete inputs used by counterexamples and witnesses -/

/-- The derivative of the spec example: secretKey is the pair 11 repeated 32
times, chainCode the pair 22 repeated 32 times, publicKey 03 followed by the
pair 33 repeated 32 times (a 33-byte compressed point). -/
def specExampleDerivative : CryptoDerivative :=
  { secretKey := List.replicate 64 '1',
    chainCode := List.replicate 64 '2',
    publicKey := '0' :: '3' :: List.replicate 64 '3' }

/-- A derivative decoding to 16/32/32 bytes — none of the three fields has
the length the spec demands. -/
def shortDerivative : CryptoDerivative :=
  { secretKey := List.replicate 32 '1',
    chainCode := List.replicate 64 '2',
    publicKey := List.replicate 64 '3' }

/-- The key pair the model produces on shortDerivative. -/
def shortDerivativeKeyPair : KeyPair :=
  { secretKey :=
      { type := "priv", format := "hex",
        value := List.replicate 32 '1' ++ List.replicate 32 '0' ++ List.replicate 32 '1' ++
          List.replicate 32 '0' ++ List.replicate 64 '2' ++ List.replicate 64 '3' },
    publicKey := { type := "pub", format := "hex", value := List.replicate 64 '3' } }

/-- A derivative whose chainCode decodes to 40 bytes while secretKey and
publicKey decode to 32 bytes each. -/
def longChainCodeDerivative : CryptoDerivative :=
  { secretKey := List.replicate 64 '1',
    chainCode := List.replicate 80 '2',
    publicKey := List.replicate 64 '3' }

/-- A derivative whose secretKey field is not hex text. -/
def nonHexDerivative : CryptoDerivative :=
  { secretKey := ['z', 'z'],
    chainCode := List.replicate 64 '2',
    publicKey := List.replicate 64 '3' }

/-- A derivative decoding to 16/32/20 bytes, used as a witness input. -/
def midDerivative : CryptoDerivative :=
  { secretKey := List.replicate 32 '4',
    chainCode := List.replicate 64 '5',
    publicKey := List.replicate 40 '6' }

/- ### Claims about getKeyPairFromDerivative -/

/-- Claim C1, evaluated at the failing input of the spec example: the
publicKey decodes to 33 bytes, the final set call writes those 33 bytes at
offset 96 of the 128-byte buffer and overflows it, so the function throws
the generic wrapped error instead of returning the documented priv key with
the prefix byte dropped. -/
theorem claim_C1_publicKey_overflow :
    (hexToBytes specExampleDerivative.publicKey).length = 33 ∧
    getKeyPairFromDerivative specExampleDerivative = .error deriveErrorMsg := by
  refine ⟨by decide, by decide⟩

/-- Claim C2 counterexample: a derivative decoding to 16/32/32 bytes — none
of the specified 32/32/33 lengths — is not rejected with any error: the call
succeeds and returns a key pair. -/
theorem claim_C2_counterexample :
    getKeyPairFromDerivative shortDerivative = .ok shortDerivativeKeyPair ∧
    (hexToBytes shortDerivative.secretKey).length = 16 ∧
    (hexToBytes shortDerivative.chainCode).length = 32 ∧
    (hexToBytes shortDerivative.publicKey).length = 32 := by
  refine ⟨by decide, by decide, by decide, by decide⟩

/-- Claim C2 amended: getKeyPairFromDerivative performs no length validation
and has no InvalidDerivativeLength failure: its only possible failure is the
single generic wrapped error (raised exactly when a buffer write overflows),
and every derivative whose decoded secretKey, chainCode and publicKey fit
their buffer slots (at most 64, 32 and 32 bytes) is accepted, whatever the
relation of its lengths to the expected 32/32/33 shape. -/
theorem claim_C2_no_length_validation (d d2 : CryptoDerivative) (e : String)
    (herr : getKeyPairFromDerivative d2 = .error e)
    (h1 : (hexToBytes d.secretKey).length ≤ 64)
    (h2 : (hexToBytes d.chainCode).length ≤ 32)
    (h3 : (hexToBytes d.publicKey).length ≤ 32) :
    e = deriveErrorMsg ∧ isOkE (getKeyPairFromDerivative d) = true := by
  constructor
  · unfold getKeyPairFromDerivative at herr
    split at herr
    · exact absurd herr (by simp)
    · exact (Except.error.inj herr).symm
  · unfold getKeyPairFromDerivative
    rw [fullKeypairBytes?_eq_some d h1 h2 h3]
    rfl

/-- Claim C2 witness: the amended theorem applied at shortDerivative, which
succeeds, with the error clause discharged at longChainCodeDerivative, which
produces the generic error. -/
theorem claim_C2_witness :
    deriveErrorMsg = deriveErrorMsg ∧
    isOkE (getKeyPairFromDerivative shortDerivative) = true :=
  claim_C2_no_length_validation shortDerivative longChainCodeDerivative deriveErrorMsg
    (by decide) (by decide) (by decide) (by decide)

/-- Claim C3 counterexample: the string zz is not hex text, yet the decoding
loop produces the byte sequence with the single byte 0 (parseInt yields NaN,
which the typed array stores as 0) instead of failing, and a derivative
carrying it is accepted by getKeyPairFromDerivative with no error at all. -/
theorem claim_C3_counterexample :
    (['z', 'z'].all isHexDigit) = false ∧
    hexToBytes ['z', 'z'] = [0] ∧
    getKeyPairFromDerivative nonHexDerivative =
      .ok { secretKey :=
              { type := "priv", format := "hex",
                value := List.replicate 128 '0' ++ List.replicate 64 '2' ++
                  List.replicate 64 '3' },
            publicKey := { type := "pub", format := "hex", value := List.replicate 64 '3' } } := by
  refine ⟨by decide, by decide, by decide⟩

/-- Claim C3 amended: the hex decoding used by the module never fails: it is
total, returning floor(length over 2) bytes each below 256; an unparsable
chunk decodes to 0 through the NaN coercion and a trailing odd character is
dropped. -/
theorem claim_C3_decode_total (s : List Char) :
    (hexToBytes s).length = s.length / 2 ∧
    (hexToBytes s).all (fun b => decide (b < 256)) = true :=
  ⟨hexToBytes_length s, hexToBytes_all_lt s⟩

/-- Claim C9 counterexample: a derivative with even-length hex fields whose
publicKey decodes to at most 32 bytes can still fail: a 40-byte chainCode
overflows the 96-byte buffer at offset 64 and the call returns the generic
error rather than succeeding with the claimed layout. -/
theorem claim_C9_counterexample :
    isValidHex longChainCodeDerivative.secretKey = true ∧
    isValidHex longChainCodeDerivative.chainCode = true ∧
    isValidHex longChainCodeDerivative.publicKey = true ∧
    (hexToBytes longChainCodeDerivative.publicKey).length ≤ 32 ∧
    getKeyPairFromDerivative longChainCodeDerivative = .error deriveErrorMsg := by
  refine ⟨by decide, by decide, by decide, by decide, by decide⟩

/-- Claim C9 amended: for every derivative with even-length hex fields whose
decoded secretKey, chainCode and publicKey are at most 64, 32 and 32 bytes,
getKeyPairFromDerivative succeeds with a priv-tagged hex encoding of a
128-byte buffer whose bytes from offset 96 are the decoded publicKey followed
by zeros up to offset 128, and echoes the publicKey text unchanged. -/
theorem claim_C9_layout (d : CryptoDerivative)
    (hv1 : isValidHex d.secretKey = true)
    (hv2 : isValidHex d.chainCode = true)
    (hv3 : isValidHex d.publicKey = true)
    (h1 : (hexToBytes d.secretKey).length ≤ 64)
    (h2 : (hexToBytes d.chainCode).length ≤ 32)
    (h3 : (hexToBytes d.publicKey).length ≤ 32) :
    getKeyPairFromDerivative d =
      .ok { secretKey :=
              { type := "priv", format := "hex",
                value := bytesToHex (fullAssembled d) },
            publicKey := { type := "pub", format := "hex", value := d.publicKey } } ∧
    (fullAssembled d).length = 128 ∧
    (fullAssembled d).drop 96 =
      hexToBytes d.publicKey ++ List.replicate (32 - (hexToBytes d.publicKey).length) 0 := by
  refine ⟨?_, ?_, ?_⟩
  · unfold getKeyPairFromDerivative
    rw [fullKeypairBytes?_eq_some d h1 h2 h3]
  · unfold fullAssembled
    simp only [List.length_append, List.length_replicate, extKey_length d h1 h2]
    omega
  · unfold fullAssembled
    rw [show (96 : Nat) = (extKey d).length from (extKey_length d h1 h2).symm,
        List.append_assoc, List.drop_left]

/-- Claim C9 witness: the amended layout theorem applied at a concrete
16/32/20-byte derivative. -/
theorem claim_C9_witness :
    getKeyPairFromDerivative midDerivative =
      .ok { secretKey :=
              { type := "priv", format := "hex",
                value := bytesToHex (fullAssembled midDerivative) },
            publicKey := { type := "pub", format := "hex", value := midDerivative.publicKey } } ∧
    (fullAssembled midDerivative).length = 128 ∧
    (fullAssembled midDerivative).drop 96 =
      hexToBytes midDerivative.publicKey ++
        List.replicate (32 - (hexToBytes midDerivative.publicKey).length) 0 :=
  claim_C9_layout midDerivative (by decide) (by decide) (by decide)
    (by decide) (by decide) (by decide)

/- ### Claim about the byte codec -/

/-- Claim C5: the byte codec satisfies both round-trip laws: decoding the
encoding of any byte sequence returns the sequence, and encoding the decoding
of any valid hex string returns its lowercase form. -/
theorem claim_C5_roundtrip :
    (∀ bs : List Nat, (∀ b ∈ bs, b < 256) → hexToBytes (bytesToHex bs) = bs) ∧
    (∀ s : List Char, isValidHex s = true → bytesToHex (hexToBytes s) = s.map Char.toLower) :=
  ⟨fun _ h => hexToBytes_bytesToHex h, fun _ h => bytesToHex_hexToBytes h⟩

/-- Claim C5 witness: both round-trip laws evaluated at concrete inputs. -/
theorem claim_C5_witness :
    hexToBytes (bytesToHex [171, 0, 255]) = [171, 0, 255] ∧
    bytesToHex (hexToBytes ['A', 'b', '0', '9']) = ['A', 'b', '0', '9'].map Char.toLower :=
  ⟨claim_C5_roundtrip.1 [171, 0, 255] (by decide),
   claim_C5_roundtrip.2 ['A', 'b', '0', '9'] (by decide)⟩

/- ### Determinism and frame claims -/

/-- Claim C6: getKeyPairFromDerivative keeps no state between calls — the
source module has no mutable module-level binding and caches nothing, so its
embedding is a pure function of the derivative alone and two calls on the
same derivative return byte-identical key pairs, field by field. -/
theorem claim_C6_deterministic (d : CryptoDerivative) (kp1 kp2 : KeyPair)
    (hc1 : getKeyPairFromDerivative d = .ok kp1)
    (hc2 : getKeyPairFromDerivative d = .ok kp2) :
    kp1.secretKey.type = kp2.secretKey.type ∧
    kp1.secretKey.format = kp2.secretKey.format ∧
    kp1.secretKey.value = kp2.secretKey.value ∧
    kp1.publicKey = kp2.publicKey ∧ kp1 = kp2 := by
  have h := Except.ok.inj (hc1.symm.trans hc2)
  subst h
  exact ⟨rfl, rfl, rfl, rfl, rfl⟩

/-- Claim C6 witness: the determinism theorem applied at shortDerivative. -/
theorem claim_C6_witness :
    shortDerivativeKeyPair.secretKey.type = shortDerivativeKeyPair.secretKey.type ∧
    shortDerivativeKeyPair.secretKey.format = shortDerivativeKeyPair.secretKey.format ∧
    shortDerivativeKeyPair.secretKey.value = shortDerivativeKeyPair.secretKey.value ∧
    shortDerivativeKeyPair.publicKey = shortDerivativeKeyPair.publicKey ∧
    shortDerivativeKeyPair = shortDerivativeKeyPair :=
  claim_C6_deterministic shortDerivative shortDerivativeKeyPair shortDerivativeKeyPair
    (by decide) (by decide)

/-- Claim C10: neither function mutates its input: the state-passing
embeddings (which thread the argument object through every statement of the
source, none of which assigns to a field of it) return the argument unchanged
alongside the same result as the pure functions. -/
theorem claim_C10_inputs_unchanged (d : CryptoDerivative) (lib : KaspaCryptoLib)
    (sk : TaggedKey) :
    (getKeyPairFromDerivativeSt d).2 = d ∧
    (getPublicKeyFromSecretKeySt lib sk).2 = sk ∧
    (getKeyPairFromDerivativeSt d).1 = getKeyPairFromDerivative d ∧
    (getPublicKeyFromSecretKeySt lib sk).1 = getPublicKeyFromSecretKey lib sk :=
  ⟨rfl, rfl, rfl, rfl⟩

/- ### Claims about the static descriptors -/

/-- Claim C8: getMetadata is a constant descriptor whose main unit carries
exactly 8 decimals and whose standard derivation path is the BIP44-style path
with hardened purpose 84, hardened coin 0, hardened account 0, external
chain 0 and index 0; getCryptoConfiguration is the constant secp256k1
descriptor.  Both are closed values taking no input. -/
theorem claim_C8_metadata_constants :
    (getMetadata.units.lookup getMetadata.mainUnit).map ProtocolUnit.decimals = some 8 ∧
    getMetadata.account.standardDerivationPath = bip44Path 84 0 0 0 0 ∧
    getCryptoConfiguration = { algorithm := "secp256k1" } := by
  refine ⟨by decide, by decide, rfl⟩

/- ### Claims about getPublicKeyFromSecretKey and signing -/

/-- A concrete curve instance used to close the hypotheses of the signing
theorem on explicit inputs: the public key is the byte-normalised scalar, a
signature is the public key followed by the digest, and verification checks
exactly that shape. -/
def trivialCurve : SigningCurve :=
  { derivePub := fun s => s.map (fun b => b % 256),
    sign := fun s dg => s.map (fun b => b % 256) ++ dg,
    verify := fun p dg sig => sig == p ++ dg }

/-- A secret key whose value is the all-zero 32-byte scalar and whose format
tag is not hex. -/
def zeroScalarKey : TaggedKey :=
  { type := "priv", format := "base64", value := List.replicate 64 '0' }

/-- Hex text of the 32-byte scalar 1. -/
def oneScalarHex : List Char := List.replicate 62 '0' ++ ['0', '1']

/-- A valid scalar carried under a non-hex format tag. -/
def oneScalarKeyB64 : TaggedKey :=
  { type := "priv", format := "base64", value := oneScalarHex }

/-- Claim C4 counterexample: a secret key declaring format base64 is not
rejected with UnsupportedEncoding: its value is handed to the spec-modelled
curve library anyway — for the zero scalar the call fails with the generic
derive error, and for the scalar 1 it succeeds outright, decoding the value
exactly as if the format had been hex. -/
theorem claim_C4_counterexample :
    zeroScalarKey.format ≠ "hex" ∧
    getPublicKeyFromSecretKey (cryptoOfCurve trivialCurve) zeroScalarKey =
      .error pubKeyErrorMsg ∧
    pubKeyErrorMsg ≠ unsupportedEncodingMsg ∧
    oneScalarKeyB64.format ≠ "hex" ∧
    getPublicKeyFromSecretKey (cryptoOfCurve trivialCurve) oneScalarKeyB64 =
      .ok { type := "pub", format := "hex", value := oneScalarHex } := by
  refine ⟨by decide, by decide, by decide, by decide, by decide⟩

/-- Claim C4 amended: getPublicKeyFromSecretKey never reads the declared
format tag: its result is identical for every format string, whatever the
curve library does, so no UnsupportedEncoding rejection path exists. -/
theorem claim_C4_format_ignored (lib : KaspaCryptoLib) (sk : TaggedKey) (fmt : String) :
    getPublicKeyFromSecretKey lib { type := sk.type, format := fmt, value := sk.value } =
      getPublicKeyFromSecretKey lib sk := rfl

/-- Claim C7 (spec-modelled signer): for any curve primitive whose
verification accepts its own signatures and whose derived public keys are
byte sequences, every successful signTransactionWithSecretKey call returns
the unchanged transaction together with a signature that verifies, under the
digest of the transaction, against the public key that
getPublicKeyFromSecretKey derives from the same secret key (whose hex value
decodes back to the derived public-key bytes). -/
theorem claim_C7_signature_valid (curve : SigningCurve)
    (digest : UnsignedTransaction → List Nat)
    (hver : ∀ s dg, curve.verify (curve.derivePub s) dg (curve.sign s dg) = true)
    (hbytes : ∀ s, ∀ b ∈ curve.derivePub s, b < 256)
    (tx : UnsignedTransaction) (sk : TaggedKey) (signed : SignedTransaction)
    (hok : signTransactionWithSecretKey curve digest tx sk = .ok signed) :
    signed.transaction = tx ∧
    getPublicKeyFromSecretKey (cryptoOfCurve curve) sk =
      .ok { type := "pub", format := "hex",
            value := bytesToHex (curve.derivePub (hexToBytes sk.value)) } ∧
    hexToBytes (bytesToHex (curve.derivePub (hexToBytes sk.value))) =
      curve.derivePub (hexToBytes sk.value) ∧
    curve.verify (curve.derivePub (hexToBytes sk.value)) (digest tx) signed.signature = true := by
  unfold signTransactionWithSecretKey at hok
  split at hok
  · split at hok
    · rename_i hfmt hvalid
      have hsigned := Except.ok.inj hok
      refine ⟨?_, ?_, ?_, ?_⟩
      · rw [← hsigned]
      · unfold getPublicKeyFromSecretKey cryptoOfCurve
        simp only [if_pos hvalid]
      · exact hexToBytes_bytesToHex (hbytes (hexToBytes sk.value))
      · rw [← hsigned]
        exact hver (hexToBytes sk.value) (digest tx)
    · exact absurd hok (by simp)
  · exact absurd hok (by simp)

/-- An opaque unsigned transaction used by the signing witness. -/
def txExample : UnsignedTransaction := { payload := [1, 2] }

/-- The injected digest capability of the witness: the raw payload. -/
def payloadDigest : UnsignedTransaction → List Nat := fun t => t.payload

/-- The scalar-1 secret key under the hex format tag. -/
def oneScalarKeyHex : TaggedKey :=
  { type := "priv", format := "hex", value := oneScalarHex }

/-- The signed transaction trivialCurve produces on txExample. -/
def signedExample : SignedTransaction :=
  { transaction := txExample, signature := List.replicate 31 0 ++ [1, 1, 2] }

/-- Claim C7 witness: the signing theorem applied to trivialCurve, the
payload digest, txExample and the scalar-1 secret key. -/
theorem claim_C7_witness :
    signedExample.transaction = txExample ∧
    getPublicKeyFromSecretKey (cryptoOfCurve trivialCurve) oneScalarKeyHex =
      .ok { type := "pub", format := "hex",
            value := bytesToHex (trivialCurve.derivePub (hexToBytes oneScalarKeyHex.value)) } ∧
    hexToBytes (bytesToHex (trivialCurve.derivePub (hexToBytes oneScalarKeyHex.value))) =
      trivialCurve.derivePub (hexToBytes oneScalarKeyHex.value) ∧
    trivialCurve.verify (trivialCurve.derivePub (hexToBytes oneScalarKeyHex.value))
      (payloadDigest txExample) signedExample.signature = true :=
  claim_C7_signature_valid trivialCurve payloadDigest
    (fun s dg => by simp [trivialCurve])
    (fun s b hb => by
      simp only [trivialCurve, List.mem_map] at hb
      obtain ⟨a, -, ha⟩ := hb
      omega)
    txExample oneScalarKeyHex signedExample (by decide)

end KaspaOffline
